import Mathlib

/-
Verification of the document pipeline cache (`workspaceCache.ts`) and the
analysis session orchestrator / position resolver (`analysis.ts`) of the
powerquery-language-services repository.

The shallow embedding below translates the TypeScript source directly:
  * the external engine (`@microsoft/powerquery-parser`) is a record of
    pure functions over abstract payload types;
  * the four module-level cache maps become explicit fields of a
    `CacheState`, threaded through every operation;
  * each call site of an engine function increments an invocation counter
    in the state, so "the engine is invoked n times" is a statement about
    the state;
  * promise rejection is modelled with `Except`, `.catch(...)` with a
    total handler, and the cooperative resolution order of the provider
    fan-out with an explicit settlement schedule.
-/

namespace PQLS

/-- Outcome of an engine computation: the parser library's tagged result,
`Ok(value)` or `Err(error)` (`PQP.Result`). -/
inductive TriedResult (α ε : Type) where
  | ok (value : α)
  | err (error : ε)
deriving DecidableEq

/-- The four pipeline stages (`CacheStageKind` in `workspaceCache.ts`). -/
inductive CacheStageKind where
  | Lexer
  | LexerSnapshot
  | Parser
  | Inspection
deriving DecidableEq

/-- Abstract payload types of the external pipeline stage engine.  The cache
never looks inside these values, so they are opaque type parameters. -/
structure EngineTypes where
  LexerState : Type
  LexError : Type
  LexerSnapshot : Type
  ParseOk : Type
  ParseError : Type
  Inspection : Type
  CommonError : Type
  Resolver : Type

/-- Settings handed to the engine (`PQP.Settings`): a locale together with an
optional external type resolver. -/
structure Settings (T : EngineTypes) where
  locale : String
  maybeExternalTypeResolver : Option T.Resolver

/-- Locale of `PQP.DefaultSettings`. -/
def defaultLocale : String := "en-US"

/-- `getSettings` from `workspaceCache.ts`: spreads the default settings,
overriding locale and resolver. -/
def getSettings {T : EngineTypes} (maybeLocale : Option String)
    (maybeExternalTypeResolver : Option T.Resolver) : Settings T :=
  { locale := maybeLocale.getD defaultLocale
    maybeExternalTypeResolver := maybeExternalTypeResolver }

/-- Position argument passed to `PQP.Task.tryInspection`. -/
structure InspectionPosition where
  lineNumber : Nat
  lineCodeUnit : Nat
deriving DecidableEq

/-- The pipeline stage engine (external collaborator): `tryLex`,
`trySnapshot`, `tryParse` and `tryInspection`, with the signatures used at
the call sites in `workspaceCache.ts`.  Note that `tryInspection` receives a
tried parse (it accepts a parse error, working from its partial state). -/
structure Engine (T : EngineTypes) where
  tryLex : Settings T → String → TriedResult T.LexerState T.LexError
  trySnapshot : T.LexerState → TriedResult T.LexerSnapshot T.LexError
  tryParse : Settings T → T.LexerSnapshot → TriedResult T.ParseOk T.ParseError
  tryInspection : Settings T → TriedResult T.ParseOk T.ParseError → InspectionPosition →
    TriedResult T.Inspection T.CommonError

/-- A text document as the cache sees it: URI identity plus full text
(`document.getText()`). -/
structure TextDocument where
  uri : String
  text : String

/-- A content-change event; `update` ignores its payload. -/
structure TextDocumentContentChangeEvent where
  text : String

/-- A `Position` object used as a key of the inspection `WeakMap`.  The
source keys that map by JavaScript object identity, so the model gives each
position object an allocation identity `id` next to its visible
`(line, character)` coordinates; two keys are "the same object" exactly when
they are equal including `id`. -/
structure PosKey where
  id : Nat
  line : Nat
  character : Nat
deriving DecidableEq

/-- A cache item: a tagged outcome together with the stage that produced it
(`TCacheItem` union in `workspaceCache.ts`).  Each constructor is one
(stage, Ok/Err) combination. -/
inductive TCacheItem (T : EngineTypes) where
  | lexOk (value : T.LexerState)
  | lexErr (error : T.LexError)
  | snapshotOk (value : T.LexerSnapshot)
  | snapshotErr (error : T.LexError)
  | parserOk (value : T.ParseOk)
  | parserErr (error : T.ParseError)
  | inspectionOk (value : T.Inspection)
  | inspectionErr (error : T.CommonError)

/-- The `stage` field of a cache item. -/
def TCacheItem.stage {T : EngineTypes} : TCacheItem T → CacheStageKind
  | .lexOk _ => .Lexer
  | .lexErr _ => .Lexer
  | .snapshotOk _ => .LexerSnapshot
  | .snapshotErr _ => .LexerSnapshot
  | .parserOk _ => .Parser
  | .parserErr _ => .Parser
  | .inspectionOk _ => .Inspection
  | .inspectionErr _ => .Inspection

/-- `PQP.ResultUtils.isErr` on a cache item. -/
def TCacheItem.isErr {T : EngineTypes} : TCacheItem T → Bool
  | .lexErr _ => true
  | .snapshotErr _ => true
  | .parserErr _ => true
  | .inspectionErr _ => true
  | _ => false

/-- An item is Ok when it is not an Err. -/
def TCacheItem.isOk {T : EngineTypes} (i : TCacheItem T) : Bool := !i.isErr

/-- The module-level mutable state of `workspaceCache.ts`: the four cache
maps, plus one invocation counter per engine function (each call site of an
engine function bumps its counter). -/
structure CacheState (T : EngineTypes) where
  lexerStateCache : String → Option (TCacheItem T)
  lexerSnapshotCache : String → Option (TCacheItem T)
  parserCache : String → Option (TCacheItem T)
  inspectionCache : String → Option (PosKey → Option (TCacheItem T))
  lexCount : Nat
  snapshotCount : Nat
  parseCount : Nat
  inspectionCount : Nat

/-- The state at module load: four empty maps, no engine invocations yet. -/
def initialCacheState (T : EngineTypes) : CacheState T :=
  { lexerStateCache := fun _ => none
    lexerSnapshotCache := fun _ => none
    parserCache := fun _ => none
    inspectionCache := fun _ => none
    lexCount := 0
    snapshotCount := 0
    parseCount := 0
    inspectionCount := 0 }

/-- Number of invocations of the engine function belonging to a stage. -/
def stageCount {T : EngineTypes} : CacheStageKind → CacheState T → Nat
  | .Lexer, s => s.lexCount
  | .LexerSnapshot, s => s.snapshotCount
  | .Parser, s => s.parseCount
  | .Inspection, s => s.inspectionCount

/-- Total number of engine invocations recorded in a state. -/
def totalEngineCount {T : EngineTypes} (s : CacheState T) : Nat :=
  s.lexCount + s.snapshotCount + s.parseCount + s.inspectionCount

/-- `close`: every one of the four caches drops its entry for the document's
URI (`AllCaches.forEach(map => map.delete(textDocument.uri))`). -/
def close {T : EngineTypes} (textDocument : TextDocument) (s : CacheState T) : CacheState T :=
  { s with
    lexerStateCache := fun u => if u = textDocument.uri then none else s.lexerStateCache u
    lexerSnapshotCache := fun u => if u = textDocument.uri then none else s.lexerSnapshotCache u
    parserCache := fun u => if u = textDocument.uri then none else s.parserCache u
    inspectionCache := fun u => if u = textDocument.uri then none else s.inspectionCache u }

/-- `update`: ignores the changes and the version and performs a full
invalidation by delegating to `close`. -/
def update {T : EngineTypes} (textDocument : TextDocument)
    (_changes : List TextDocumentContentChangeEvent) (_version : Nat)
    (s : CacheState T) : CacheState T :=
  close textDocument s

/-- `getOrCreate`: look the key up; on a hit return the stored value without
touching the state, on a miss run the factory, store its result and return
it.  The concrete map is abstracted by a getter/setter pair (the source
passes the `Map` object itself). -/
def getOrCreate {T : EngineTypes}
    (cacheGet : CacheState T → Option (TCacheItem T))
    (cacheSet : CacheState T → TCacheItem T → CacheState T)
    (factoryFn : CacheState T → TCacheItem T × CacheState T)
    (s : CacheState T) : TCacheItem T × CacheState T :=
  match cacheGet s with
  | some maybeValue => (maybeValue, s)
  | none =>
    let r := factoryFn s
    (r.1, cacheSet r.2 r.1)

/-- `createLexerCacheItem`: invoke `tryLex` on the document text and tag the
outcome with stage `Lexer`. -/
def createLexerCacheItem {T : EngineTypes} (E : Engine T) (textDocument : TextDocument)
    (maybeLocale : Option String) (s : CacheState T) : TCacheItem T × CacheState T :=
  (match E.tryLex (getSettings maybeLocale none) textDocument.text with
    | .ok v => .lexOk v
    | .err e => .lexErr e,
   { s with lexCount := s.lexCount + 1 })

/-- `getLexerState`: memoized lexing, keyed by the document URI. -/
def getLexerState {T : EngineTypes} (E : Engine T) (textDocument : TextDocument)
    (maybeLocale : Option String) (s : CacheState T) : TCacheItem T × CacheState T :=
  getOrCreate (fun s => s.lexerStateCache textDocument.uri)
    (fun s v => { s with
      lexerStateCache := fun u => if u = textDocument.uri then some v else s.lexerStateCache u })
    (createLexerCacheItem E textDocument maybeLocale) s

/-- `createLexerSnapshotCacheItem`: get the (cached) lexer state; if it is an
Err return it unchanged, otherwise invoke `trySnapshot` and tag the outcome
with stage `LexerSnapshot`.  The catch-all arm returns any non-`Lexer` Ok
item unchanged; it is unreachable from reachable states because the lexer
cache only ever stores stage-`Lexer` items (the source relies on the
static type `LexerCacheItem` for this). -/
def createLexerSnapshotCacheItem {T : EngineTypes} (E : Engine T) (textDocument : TextDocument)
    (maybeLocale : Option String) (s : CacheState T) : TCacheItem T × CacheState T :=
  let r := getLexerState E textDocument maybeLocale s
  match r.1 with
  | .lexOk lexerState =>
    (match E.trySnapshot lexerState with
      | .ok v => .snapshotOk v
      | .err e => .snapshotErr e,
     { r.2 with snapshotCount := r.2.snapshotCount + 1 })
  | other => (other, r.2)

/-- `getTriedLexerSnapshot`: memoized snapshot stage. -/
def getTriedLexerSnapshot {T : EngineTypes} (E : Engine T) (textDocument : TextDocument)
    (maybeLocale : Option String) (s : CacheState T) : TCacheItem T × CacheState T :=
  getOrCreate (fun s => s.lexerSnapshotCache textDocument.uri)
    (fun s v => { s with
      lexerSnapshotCache := fun u => if u = textDocument.uri then some v else s.lexerSnapshotCache u })
    (createLexerSnapshotCacheItem E textDocument maybeLocale) s

/-- `createParserCacheItem`: get the (cached) snapshot item; if its stage is
not `LexerSnapshot` or it is an Err, return it unchanged; otherwise invoke
`tryParse` and tag the outcome with stage `Parser`.  The source's guard
`stage !== LexerSnapshot || isErr` passes exactly the `snapshotOk` items. -/
def createParserCacheItem {T : EngineTypes} (E : Engine T) (textDocument : TextDocument)
    (maybeLocale : Option String) (s : CacheState T) : TCacheItem T × CacheState T :=
  let r := getTriedLexerSnapshot E textDocument maybeLocale s
  match r.1 with
  | .snapshotOk lexerSnapshot =>
    (match E.tryParse (getSettings maybeLocale none) lexerSnapshot with
      | .ok v => .parserOk v
      | .err e => .parserErr e,
     { r.2 with parseCount := r.2.parseCount + 1 })
  | other => (other, r.2)

/-- `getTriedParse`: memoized parse stage. -/
def getTriedParse {T : EngineTypes} (E : Engine T) (textDocument : TextDocument)
    (maybeLocale : Option String) (s : CacheState T) : TCacheItem T × CacheState T :=
  getOrCreate (fun s => s.parserCache textDocument.uri)
    (fun s v => { s with
      parserCache := fun u => if u = textDocument.uri then some v else s.parserCache u })
    (createParserCacheItem E textDocument maybeLocale) s

/-- `createTriedInspection`: get the (cached) parse item; if its stage is not
`Parser` return it unchanged; otherwise invoke `tryInspection`, passing the
parse item itself as the tried parse (the source spreads the parser cache
item, an Ok or an Err, into the call), tagging the outcome `Inspection`. -/
def createTriedInspection {T : EngineTypes} (E : Engine T) (textDocument : TextDocument)
    (position : PosKey) (maybeLocale : Option String)
    (maybeExternalTypeResolver : Option T.Resolver)
    (s : CacheState T) : TCacheItem T × CacheState T :=
  let r := getTriedParse E textDocument maybeLocale s
  match r.1 with
  | .parserOk v =>
    (match E.tryInspection (getSettings maybeLocale maybeExternalTypeResolver)
        (.ok v) { lineNumber := position.line, lineCodeUnit := position.character } with
      | .ok i => .inspectionOk i
      | .err e => .inspectionErr e,
     { r.2 with inspectionCount := r.2.inspectionCount + 1 })
  | .parserErr e =>
    (match E.tryInspection (getSettings maybeLocale maybeExternalTypeResolver)
        (.err e) { lineNumber := position.line, lineCodeUnit := position.character } with
      | .ok i => .inspectionOk i
      | .err er => .inspectionErr er,
     { r.2 with inspectionCount := r.2.inspectionCount + 1 })
  | other => (other, r.2)

/-- The position-keyed inner map for a URI: the stored `WeakMap`, or an empty
map when the document was never inspected. -/
def positionCacheOf {T : EngineTypes} (s : CacheState T) (uri : String) :
    PosKey → Option (TCacheItem T) :=
  match s.inspectionCache uri with
  | some m => m
  | none => fun _ => none

/-- `getTriedInspection`: double-keyed lookup, first by URI, then by the
position object (`WeakMap`, hence by object identity).  On a miss the result
of `createTriedInspection` is stored under the position key. -/
def getTriedInspection {T : EngineTypes} (E : Engine T) (textDocument : TextDocument)
    (position : PosKey) (maybeLocale : Option String)
    (maybeExternalTypeResolver : Option T.Resolver)
    (s : CacheState T) : TCacheItem T × CacheState T :=
  let positionCache := positionCacheOf s textDocument.uri
  match positionCache position with
  | some v => (v, s)
  | none =>
    let r := createTriedInspection E textDocument position maybeLocale maybeExternalTypeResolver s
    (r.1,
     { r.2 with
       inspectionCache := fun u =>
         if u = textDocument.uri then
           some (fun p => if p = position then some r.1 else positionCache p)
         else r.2.inspectionCache u })

/-- Extract the tried parse carried by a stage-`Parser` item (`none` for
items of any other stage). -/
def parserStageResult? {T : EngineTypes} : TCacheItem T → Option (TriedResult T.ParseOk T.ParseError)
  | .parserOk v => some (.ok v)
  | .parserErr e => some (.err e)
  | _ => none

/-- Stage-tag discipline of the four caches: the lexer cache holds only
stage-`Lexer` items, and each downstream cache holds an Ok only when the Ok
was produced by its own stage (an upstream-tagged entry is always an Err). -/
structure WellStaged {T : EngineTypes} (s : CacheState T) : Prop where
  lex : ∀ u i, s.lexerStateCache u = some i → i.stage = CacheStageKind.Lexer
  snapshot : ∀ u i, s.lexerSnapshotCache u = some i → i.isOk = true →
    i.stage = CacheStageKind.LexerSnapshot
  parse : ∀ u i, s.parserCache u = some i → i.isOk = true →
    i.stage = CacheStageKind.Parser
  inspection : ∀ u m p i, s.inspectionCache u = some m → m p = some i → i.isOk = true →
    i.stage = CacheStageKind.Inspection

/-
Part 2: the analysis session (`analysis.ts`): position resolver, provider
fan-out, hover and signature help.  The lexer output consumed by the
resolver and the inspection outcome consumed by signature help are external
inputs here, so they are parameters of the model.
-/

/-- Token kinds (`PQP.LineTokenKind`).  Only the `Identifier` distinction is
inspected by the code under verification; a representative subset of the
other kinds stands in for the rest of the enumeration. -/
inductive LineTokenKind where
  | Identifier
  | Keyword
  | NumericLiteral
  | StringLiteral
  | Operator
  | Whitespace
deriving DecidableEq

/-- A lexed line token (`PQP.LineToken`): text, kind and the start/end
character offsets on its line. -/
structure LineToken where
  data : String
  kind : LineTokenKind
  positionStart : Nat
  positionEnd : Nat
deriving DecidableEq

/-- A cursor position (`vscode-languageserver-types` `Position`). -/
structure Position where
  line : Nat
  character : Nat
deriving DecidableEq

/-- A source range; `stop` models the source's `end` field (a Lean keyword). -/
structure Range where
  start : Position
  stop : Position
deriving DecidableEq

/-- The document as the analysis session sees it: the raw text of each line
(for `document.getText`) and, per line, the token list produced by the
external lexer (`WorkspaceCache.getLexerState(document).lines[i].tokens`). -/
structure LexedDocument where
  textLines : List String
  tokenLines : List (List LineToken)

/-- `maybeLineTokensAt`: the token list of the cursor's line, or `none` when
the line does not exist. -/
def maybeLineTokensAt (document : LexedDocument) (position : Position) :
    Option (List LineToken) :=
  document.tokenLines.get? position.line

/-- The text of `document.getText(currentRange)` for the one-character range
from `character - 1` to `character` on the cursor's line.  `take
(character - (character - 1))` yields the empty string when `character = 0`,
matching the offset clamping of `TextDocument.getText` on a negative start
character. -/
def textImmediatelyBefore (document : LexedDocument) (position : Position) : String :=
  match document.textLines.get? position.line with
  | none => ""
  | some lineText =>
    String.mk (((lineText.toList).drop (position.character - 1)).take
      (position.character - (position.character - 1)))

/-- `maybeTokenAt`: scan the cursor line for the first token whose inclusive
span contains the cursor offset; failing that, when the character just
before the cursor is a literal dot, scan for the first identifier token
whose span contains the dot's offset and synthesize an extended token. -/
def maybeTokenAt (document : LexedDocument) (position : Position) : Option LineToken :=
  match maybeLineTokensAt document position with
  | none => none
  | some lineTokens =>
    match lineTokens.find? (fun token =>
        decide (token.positionStart ≤ position.character ∧
          position.character ≤ token.positionEnd)) with
    | some token => some token
    | none =>
      if textImmediatelyBefore document position = "." then
        match lineTokens.find? (fun token =>
            decide ((token.positionStart ≤ position.character - 1 ∧
              position.character - 1 ≤ token.positionEnd) ∧
              token.kind = LineTokenKind.Identifier)) with
        | some token =>
          some { data := token.data ++ "."
                 kind := token.kind
                 positionStart := token.positionStart
                 positionEnd := token.positionEnd + 1 }
        | none => none
      else none

/-- `maybeIdentifierAt`: the token at the cursor, provided it is an
identifier token. -/
def maybeIdentifierAt (document : LexedDocument) (position : Position) : Option LineToken :=
  match maybeTokenAt document position with
  | some token =>
    if token.kind = LineTokenKind.Identifier then some token else none
  | none => none

/-- `getTokenRangeForPosition`: the token's span placed on the cursor's
line. -/
def getTokenRangeForPosition (token : LineToken) (cursorPosition : Position) : Range :=
  { start := { line := cursorPosition.line, character := token.positionStart }
    stop := { line := cursorPosition.line, character := token.positionEnd } }

/-- A completion item (label, optional documentation, numeric kind
classifier), per the LSP response shape. -/
structure CompletionItem where
  label : String
  documentation : Option String := none
  kind : Nat := 0
deriving DecidableEq

/-- Hover response: contents plus the source range they apply to (`none`
range in the empty sentinel). -/
structure Hover where
  contents : String
  range : Option Range
deriving DecidableEq

/-- Signature help response: signature labels, active signature and active
parameter (explicitly absent when none is active). -/
structure SignatureHelp where
  signatures : List String
  activeSignature : Option Nat
  activeParameter : Option Nat
deriving DecidableEq

/-- Modelled from the spec: `LanguageServiceUtils.EmptyCompletionItems` (the
utilities module is not under src); the empty sequence sentinel. -/
def EmptyCompletionItems : List CompletionItem := []

/-- Modelled from the spec: `LanguageServiceUtils.EmptyHover` (not under
src); the well-known empty hover sentinel. -/
def EmptyHover : Hover := { contents := "", range := none }

/-- Modelled from the spec: `LanguageServiceUtils.EmptySignatureHelp` (not
under src); the well-known empty signature-help sentinel. -/
def EmptySignatureHelp : SignatureHelp :=
  { signatures := [], activeSignature := none, activeParameter := none }

/-- Completion context handed to providers (`CompletionItemProviderContext`,
all fields optional; `{}` when no token was resolved). -/
structure CompletionItemProviderContext where
  range : Option Range := none
  text : Option String := none
  tokenKind : Option LineTokenKind := none
deriving DecidableEq

/-- Hover context handed to the provider (`HoverProviderContext`). -/
structure HoverProviderContext where
  range : Range
  identifier : String
deriving DecidableEq

/-- Modelled from the spec: `SignatureProviderContext` (providers module not
under src): the active function name and the argument ordinal derived from
the inspection.  Only `maybeFunctionName` is examined by `analysis.ts`. -/
structure SignatureProviderContext where
  maybeFunctionName : Option String := none
  maybeArgumentOrdinal : Option Nat := none
deriving DecidableEq

/-- A symbol provider capability: the three asynchronous operations, each of
which may reject (modelled by `Except`).  Hover and signature help may also
resolve to `null` (`Option`). -/
structure SymbolProviderModel (ε : Type) where
  getCompletionItems : CompletionItemProviderContext → Except ε (List CompletionItem)
  getHover : HoverProviderContext → Except ε (Option Hover)
  getSignatureHelp : SignatureProviderContext → Except ε (Option SignatureHelp)

/-- `promise.catch(() => d)`: the settled value of a provider promise after
the orchestrator's catch wrapper — the payload on fulfilment, the default on
rejection. -/
def promiseCatch {ε α : Type} (p : Except ε α) (d : α) : α :=
  match p with
  | .ok v => v
  | .error _ => d

/-- `promise.catch(() => null)`: a caught promise never rejects, so the
resulting awaited computation is always `ok`. -/
def promiseCaughtNull {ε α : Type} (p : Except ε (Option α)) : Except ε (Option α) :=
  Except.ok (promiseCatch p none)

/-- `await p` followed by the rest of an async body: a fulfilment value feeds
the continuation, a rejection propagates (is rethrown). -/
def awaitThen {ε α β : Type} (p : Except ε α) (k : α → Except ε β) : Except ε β :=
  match p with
  | .ok v => k v
  | .error e => .error e

/-- One settlement event of the cooperative scheduler: task `i` (if it
exists) writes its value into its own slot of the result array. -/
def settleStep {α : Type} (tasks : List α) (acc : List (Option α)) (i : Nat) :
    List (Option α) :=
  match tasks.get? i with
  | some v => acc.set i (some v)
  | none => acc

/-- Run a settlement schedule: tasks resolve in the order given by `order`,
each filling its own slot; slots of tasks that never resolve stay `none`. -/
def settleAll {α : Type} (tasks : List α) (order : List Nat) : List (Option α) :=
  order.foldl (settleStep tasks) (List.replicate tasks.length none)

/-- Collect an all-or-nothing list: `some` exactly when every slot settled. -/
def sequenceOptions {α : Type} : List (Option α) → Option (List α)
  | [] => some []
  | none :: _ => none
  | some a :: rest => (sequenceOptions rest).map (fun l => a :: l)

/-- `Promise.all(tasks)` under a settlement schedule: resolves (positionally)
once every task has resolved, and stays pending (`none`) otherwise. -/
def promiseAll {α : Type} (tasks : List α) (order : List Nat) : Option (List α) :=
  sequenceOptions (settleAll tasks order)

/-- The completion context built at the start of `getCompletionItems`: empty
when no token is at the cursor, otherwise the token's range, text and
kind. -/
def completionContextAt (document : LexedDocument) (position : Position) :
    CompletionItemProviderContext :=
  match maybeTokenAt document position with
  | none => {}
  | some token =>
    { range := some (getTokenRangeForPosition token position)
      text := some token.data
      tokenKind := some token.kind }

/-- `DocumentAnalysis.getCompletionItems`: build the context, wrap each of
the four provider calls with a catch that degrades a rejection to the empty
list, join all four under the given settlement schedule, and concatenate the
responses in the fixed order keyword, library, environment, local.  `none`
models a join that never completes because some task never settles. -/
def getCompletionItemsRun {ε : Type}
    (librarySymbolProvider keywordProvider environmentSymbolProvider
      localSymbolProvider : SymbolProviderModel ε)
    (document : LexedDocument) (position : Position) (order : List Nat) :
    Option (List CompletionItem) :=
  let context := completionContextAt document position
  let getLibraryCompletionItems :=
    promiseCatch (librarySymbolProvider.getCompletionItems context) EmptyCompletionItems
  let getKeywords :=
    promiseCatch (keywordProvider.getCompletionItems context) EmptyCompletionItems
  let getEnvironmentCompletionItems :=
    promiseCatch (environmentSymbolProvider.getCompletionItems context) EmptyCompletionItems
  let getLocalCompletionItems :=
    promiseCatch (localSymbolProvider.getCompletionItems context) EmptyCompletionItems
  match promiseAll [getLibraryCompletionItems, getKeywords,
      getEnvironmentCompletionItems, getLocalCompletionItems] order with
  | none => none
  | some [libraryResponse, keywordResponse, environmentResponse, localResponse] =>
    some (keywordResponse ++ libraryResponse ++ environmentResponse ++ localResponse)
  | some _ => none

/-- `DocumentAnalysis.getHover`: require an identifier token at the cursor;
query the library provider with a catch that degrades a rejection to `null`;
a null or missing response falls through to the empty hover sentinel. -/
def getHoverRun {ε : Type} (librarySymbolProvider : SymbolProviderModel ε)
    (document : LexedDocument) (position : Position) : Except ε Hover :=
  match maybeIdentifierAt document position with
  | some identifierToken =>
    let context : HoverProviderContext :=
      { range := getTokenRangeForPosition identifierToken position
        identifier := identifierToken.data }
    awaitThen (promiseCaughtNull (librarySymbolProvider.getHover context))
      (fun libraryResponse =>
        match libraryResponse with
        | some h => Except.ok h
        | none => Except.ok EmptyHover)
  | none => Except.ok EmptyHover

/-- `DocumentAnalysis.getSignatureHelp`: require a successful inspection and
a derivable signature context with a function name; otherwise the empty
sentinel.  The inspection outcome and the context derivation
(`InspectionUtils.maybeSignatureProviderContext`, not under src) arrive as
parameters. -/
def getSignatureHelpRun {ε InspOk InspErr : Type}
    (librarySymbolProvider : SymbolProviderModel ε)
    (maybeTriedInspection : Option (TriedResult InspOk InspErr))
    (maybeSignatureProviderContext : InspOk → Option SignatureProviderContext) :
    Except ε SignatureHelp :=
  match maybeTriedInspection with
  | none => Except.ok EmptySignatureHelp
  | some (.err _) => Except.ok EmptySignatureHelp
  | some (.ok inspected) =>
    match maybeSignatureProviderContext inspected with
    | none => Except.ok EmptySignatureHelp
    | some context =>
      match context.maybeFunctionName with
      | none => Except.ok EmptySignatureHelp
      | some _ =>
        awaitThen (promiseCaughtNull (librarySymbolProvider.getSignatureHelp context))
          (fun libraryResponse => Except.ok (libraryResponse.getD EmptySignatureHelp))

/-- Spec reading of the position resolver, for comparison with
`maybeTokenAt`: "returns the first token on the cursor's line whose span
[start, end] contains the cursor character offset; if no such token exists
but the single character immediately preceding the cursor is a literal dot
and an identifier token ends exactly at that dot's position, it returns a
synthesized token whose text is the identifier's text with a trailing dot
and whose end offset is the identifier's end extended by one; in every
other case it returns no token." -/
def maybeTokenAtSpec (document : LexedDocument) (position : Position) : Option LineToken :=
  match maybeLineTokensAt document position with
  | none => none
  | some lineTokens =>
    match lineTokens.find? (fun token =>
        decide (token.positionStart ≤ position.character ∧
          position.character ≤ token.positionEnd)) with
    | some token => some token
    | none =>
      if textImmediatelyBefore document position = "." then
        match lineTokens.find? (fun token =>
            decide (token.kind = LineTokenKind.Identifier ∧
              token.positionEnd = position.character - 1)) with
        | some token =>
          some { data := token.data ++ "."
                 kind := token.kind
                 positionStart := token.positionStart
                 positionEnd := token.positionEnd + 1 }
        | none => none
      else none

/-
Concrete instantiations used to evaluate the model on explicit inputs.
-/

/-- Engine payload types instantiated at `Nat` for concrete evaluation. -/
@[reducible] def NatEngineTypes : EngineTypes :=
  { LexerState := Nat, LexError := Nat, LexerSnapshot := Nat, ParseOk := Nat
    ParseError := Nat, Inspection := Nat, CommonError := Nat, Resolver := Nat }

/-- An engine whose four stages all succeed. -/
def engineAllOk : Engine NatEngineTypes :=
  { tryLex := fun _ _ => .ok 1
    trySnapshot := fun _ => .ok 2
    tryParse := fun _ _ => .ok 3
    tryInspection := fun _ _ _ => .ok 4 }

/-- An engine whose lexer stage fails. -/
def engineLexFails : Engine NatEngineTypes :=
  { tryLex := fun _ _ => .err 9
    trySnapshot := fun _ => .ok 2
    tryParse := fun _ _ => .ok 3
    tryInspection := fun _ _ _ => .ok 4 }

/-- An engine whose parse stage fails while lexing and snapshotting
succeed. -/
def engineParseFails : Engine NatEngineTypes :=
  { tryLex := fun _ _ => .ok 1
    trySnapshot := fun _ => .ok 2
    tryParse := fun _ _ => .err 7
    tryInspection := fun _ _ _ => .ok 5 }

/-- A concrete document for the cache model. -/
def docA : TextDocument := { uri := "a", text := "x" }

/-- A provider that always fulfils with a fixed item list and resolves hover
and signature help to null. -/
def providerOf (items : List CompletionItem) : SymbolProviderModel Unit :=
  { getCompletionItems := fun _ => .ok items
    getHover := fun _ => .ok none
    getSignatureHelp := fun _ => .ok none }

/-- A provider whose every operation rejects. -/
def failingProviderU : SymbolProviderModel Unit :=
  { getCompletionItems := fun _ => .error ()
    getHover := fun _ => .error ()
    getSignatureHelp := fun _ => .error () }

/-- A concrete lexed document: one line reading `Test.` whose identifier
token `Test` spans offsets 0 through 4. -/
def docTest : LexedDocument :=
  { textLines := ["Test."]
    tokenLines := [[{ data := "Test", kind := LineTokenKind.Identifier
                      positionStart := 0, positionEnd := 4 }]] }

/-- The cursor sitting immediately after the dot of `Test.`. -/
def posAfterDot : Position := { line := 0, character := 5 }

/-
Helper lemmas about lists and the settlement scheduler.
-/

/-- Setting a slot within range makes `get?` return the new value there. -/
theorem list_get?_set_self {α : Type} :
    ∀ (l : List α) (i : Nat) (v : α), i < l.length → (l.set i v).get? i = some v
  | _ :: _, 0, _, _ => rfl
  | _ :: l, i + 1, v, h => list_get?_set_self l i v (Nat.lt_of_succ_lt_succ h)

/-- Setting one slot leaves `get?` at any other index unchanged. -/
theorem list_get?_set_ne {α : Type} :
    ∀ (l : List α) (i j : Nat) (v : α), i ≠ j → (l.set i v).get? j = l.get? j
  | [], _, _, _, _ => rfl
  | _ :: _, 0, 0, _, h => absurd rfl h
  | _ :: _, 0, _ + 1, _, _ => rfl
  | _ :: _, _ + 1, 0, _, _ => rfl
  | _ :: l, i + 1, j + 1, v, h =>
    list_get?_set_ne l i j v (fun he => h (congrArg Nat.succ he))

/-- `get?` past the end of a list is `none`. -/
theorem list_get?_ge {α : Type} :
    ∀ (l : List α) (i : Nat), l.length ≤ i → l.get? i = none
  | [], _, _ => rfl
  | _ :: _, 0, h => absurd h (Nat.not_succ_le_zero _)
  | _ :: l, i + 1, h => list_get?_ge l i (Nat.le_of_succ_le_succ h)

/-- `get?` within bounds yields a value. -/
theorem list_get?_lt {α : Type} :
    ∀ (l : List α) (i : Nat), i < l.length → ∃ v, l.get? i = some v
  | [], i, h => absurd h (Nat.not_lt_zero i)
  | a :: _, 0, _ => ⟨a, rfl⟩
  | _ :: l, i + 1, h => list_get?_lt l i (Nat.lt_of_succ_lt_succ h)

/-- `get?` within a replicated list yields the replicated element. -/
theorem list_get?_replicate_lt {α : Type} :
    ∀ (n i : Nat) (a : α), i < n → (List.replicate n a).get? i = some a
  | _ + 1, 0, _, _ => rfl
  | n + 1, i + 1, a, h => list_get?_replicate_lt n i a (Nat.lt_of_succ_lt_succ h)

/-- Lists agreeing under `get?` at every index are equal. -/
theorem list_ext_get? {α : Type} :
    ∀ (l₁ l₂ : List α), (∀ n, l₁.get? n = l₂.get? n) → l₁ = l₂
  | [], [], _ => rfl
  | [], _ :: _, h => by simpa using h 0
  | _ :: _, [], h => by simpa using h 0
  | a :: l₁, b :: l₂, h => by
    have hab : some a = some b := h 0
    have htl : l₁ = l₂ := list_ext_get? l₁ l₂ (fun n => h (n + 1))
    cases hab
    rw [htl]

/-- `get?` commutes with `map`. -/
theorem list_get?_map {α β : Type} (f : α → β) :
    ∀ (l : List α) (i : Nat), (l.map f).get? i = (l.get? i).map f
  | [], _ => rfl
  | _ :: _, 0 => rfl
  | _ :: l, i + 1 => list_get?_map f l i

/-- `find?` only depends on the predicate's values on the list. -/
theorem list_find?_congr {α : Type} {p q : α → Bool} :
    ∀ (l : List α), (∀ a, a ∈ l → p a = q a) → l.find? p = l.find? q
  | [], _ => rfl
  | a :: l, h => by
    have ha : p a = q a := h a (List.mem_cons_self a l)
    have hl := list_find?_congr l (fun b hb => h b (List.mem_cons_of_mem a hb))
    simp only [List.find?]
    rw [ha, hl]

/-- A `find?` returning `none` refutes the predicate on every element. -/
theorem list_find?_none {α : Type} {p : α → Bool} :
    ∀ (l : List α), l.find? p = none → ∀ a, a ∈ l → p a = false
  | [], _, _, ha => absurd ha (List.not_mem_nil _)
  | a :: l, h, b, hb => by
    by_cases hpa : p a
    · simp only [List.find?, hpa] at h
      exact Option.noConfusion h
    · simp only [List.find?, Bool.not_eq_true] at hpa h
      rw [hpa] at h
      rcases List.mem_cons.mp hb with hba | hbl
      · rw [hba]; exact hpa
      · exact list_find?_none l h b hbl

/-- `sequenceOptions` succeeds on a fully settled list, returning it. -/
theorem sequenceOptions_map_some {α : Type} :
    ∀ (l : List α), sequenceOptions (l.map some) = some l
  | [] => rfl
  | a :: l => by
    simp only [List.map, sequenceOptions, sequenceOptions_map_some l, Option.map]

/-- One settlement step preserves the length of the slot array. -/
theorem settleStep_length {α : Type} (tasks : List α) (acc : List (Option α)) (i : Nat) :
    (settleStep tasks acc i).length = acc.length := by
  unfold settleStep
  cases tasks.get? i <;> simp

/-- Running a schedule fills exactly the slots of the tasks that appear in
the schedule, irrespective of the order they appear in. -/
theorem settleAll_go_get? {α : Type} (tasks : List α) :
    ∀ (order : List Nat) (acc : List (Option α)), acc.length = tasks.length →
      ∀ i, (order.foldl (settleStep tasks) acc).get? i =
        if i ∈ order ∧ i < tasks.length then (tasks.get? i).map some
        else acc.get? i
  | [], acc, _, i => by simp
  | j :: rest, acc, hlen, i => by
    have hlen' : (settleStep tasks acc j).length = tasks.length := by
      rw [settleStep_length, hlen]
    have ih := settleAll_go_get? tasks rest (settleStep tasks acc j) hlen' i
    simp only [List.foldl_cons]
    rw [ih]
    by_cases hrest : i ∈ rest ∧ i < tasks.length
    · have : i ∈ j :: rest ∧ i < tasks.length :=
        ⟨List.mem_cons_of_mem j hrest.1, hrest.2⟩
      simp [hrest, this]
    · rw [if_neg hrest]
      by_cases hij : i = j
      · subst hij
        by_cases hi : i < tasks.length
        · have hcons : i ∈ i :: rest ∧ i < tasks.length := ⟨List.mem_cons_self i rest, hi⟩
          rw [if_pos hcons]
          obtain ⟨v, hv⟩ := list_get?_lt tasks i hi
          rw [hv]
          unfold settleStep
          rw [hv]
          exact list_get?_set_self acc i (some v) (hlen ▸ hi)
        · have hcond : ¬(i ∈ i :: rest ∧ i < tasks.length) := fun hc => hi hc.2
          rw [if_neg hcond]
          unfold settleStep
          rw [list_get?_ge tasks i (Nat.le_of_not_lt hi)]
      · have hcond : ¬(i ∈ j :: rest ∧ i < tasks.length) := by
          rintro ⟨hmem, hlt⟩
          rcases List.mem_cons.mp hmem with h1 | h2
          · exact hij h1
          · exact hrest ⟨h2, hlt⟩
        rw [if_neg hcond]
        unfold settleStep
        cases tasks.get? j with
        | none => rfl
        | some v => exact list_get?_set_ne acc j i (some v) (fun he => hij he.symm)

/-- A complete schedule settles every task: `Promise.all` resolves with the
task values in task order, whatever the resolution order was. -/
theorem promiseAll_complete {α : Type} (tasks : List α) (order : List Nat)
    (h : ∀ i, i < tasks.length → i ∈ order) : promiseAll tasks order = some tasks := by
  have hsettle : settleAll tasks order = tasks.map some := by
    apply list_ext_get?
    intro n
    rw [settleAll, settleAll_go_get? tasks order _ (by simp), list_get?_map]
    by_cases hn : n < tasks.length
    · rw [if_pos ⟨h n hn, hn⟩]
    · rw [if_neg (fun hc => hn hc.2), list_get?_ge tasks n (Nat.le_of_not_lt hn),
        list_get?_ge (List.replicate tasks.length none) n
          (by rw [List.length_replicate]; exact Nat.le_of_not_lt hn)]
      rfl
  rw [promiseAll, hsettle, sequenceOptions_map_some]

/-- Membership from a successful `get?`. -/
theorem list_get?_mem {α : Type} :
    ∀ (l : List α) (i : Nat) (a : α), l.get? i = some a → a ∈ l
  | [], _, _, h => Option.noConfusion h
  | b :: l, 0, a, h => by
    cases h
    exact List.mem_cons_self b l
  | b :: l, i + 1, a, h => List.mem_cons_of_mem b (list_get?_mem l i a h)

/-- Under a complete schedule the completion fan-out resolves to the caught
responses concatenated in the fixed order: keyword, library, environment,
local. -/
theorem getCompletionItemsRun_eq {ε : Type}
    (librarySymbolProvider keywordProvider environmentSymbolProvider
      localSymbolProvider : SymbolProviderModel ε)
    (document : LexedDocument) (position : Position) (order : List Nat)
    (horder : ∀ i, i < 4 → i ∈ order) :
    getCompletionItemsRun librarySymbolProvider keywordProvider environmentSymbolProvider
      localSymbolProvider document position order =
      some (promiseCatch (keywordProvider.getCompletionItems
          (completionContextAt document position)) EmptyCompletionItems ++
        promiseCatch (librarySymbolProvider.getCompletionItems
          (completionContextAt document position)) EmptyCompletionItems ++
        promiseCatch (environmentSymbolProvider.getCompletionItems
          (completionContextAt document position)) EmptyCompletionItems ++
        promiseCatch (localSymbolProvider.getCompletionItems
          (completionContextAt document position)) EmptyCompletionItems) := by
  have h4 := promiseAll_complete
    [promiseCatch (librarySymbolProvider.getCompletionItems
        (completionContextAt document position)) EmptyCompletionItems,
     promiseCatch (keywordProvider.getCompletionItems
        (completionContextAt document position)) EmptyCompletionItems,
     promiseCatch (environmentSymbolProvider.getCompletionItems
        (completionContextAt document position)) EmptyCompletionItems,
     promiseCatch (localSymbolProvider.getCompletionItems
        (completionContextAt document position)) EmptyCompletionItems]
    order (by simpa using horder)
  simp only [getCompletionItemsRun, h4]

/-- The angle taken by the dot-synthesis branch requires a cursor strictly
past the start of the line: with `character = 0` the extracted text is
empty, never a dot. -/
theorem textImmediatelyBefore_dot_pos (document : LexedDocument) (position : Position)
    (h : textImmediatelyBefore document position = ".") : 1 ≤ position.character := by
  by_contra hc
  have h0 : position.character = 0 := by omega
  unfold textImmediatelyBefore at h
  rw [h0] at h
  cases hl : document.textLines.get? position.line with
  | none =>
    rw [hl] at h
    exact absurd h (by decide)
  | some lineText =>
    rw [hl] at h
    simp at h

/-- C6: for every call to `getCompletionItems`, the returned list is exactly
the concatenation, in fixed order, of the keyword provider's results, then
the library provider's, then the environment provider's, then the
local-document provider's — independent of the order in which the provider
tasks resolve (any complete settlement schedule), with no deduplication and
no ranking applied. -/
theorem completion_fixed_merge_order {ε : Type}
    (librarySymbolProvider keywordProvider environmentSymbolProvider
      localSymbolProvider : SymbolProviderModel ε)
    (document : LexedDocument) (position : Position) (order : List Nat)
    (horder : ∀ i, i < 4 → i ∈ order)
    (kws libs envs locs : List CompletionItem)
    (hkw : keywordProvider.getCompletionItems (completionContextAt document position) =
      Except.ok kws)
    (hlib : librarySymbolProvider.getCompletionItems (completionContextAt document position) =
      Except.ok libs)
    (henv : environmentSymbolProvider.getCompletionItems (completionContextAt document position) =
      Except.ok envs)
    (hloc : localSymbolProvider.getCompletionItems (completionContextAt document position) =
      Except.ok locs) :
    getCompletionItemsRun librarySymbolProvider keywordProvider environmentSymbolProvider
      localSymbolProvider document position order = some (kws ++ libs ++ envs ++ locs) := by
  rw [getCompletionItemsRun_eq librarySymbolProvider keywordProvider environmentSymbolProvider
    localSymbolProvider document position order horder]
  rw [hkw, hlib, henv, hloc]
  rfl

/-- Witness for C6: four fulfilled providers joined under the reversed
resolution schedule still merge as keyword, library, environment, local. -/
theorem completion_fixed_merge_order_witness :
    getCompletionItemsRun (providerOf [{ label := "L" }]) (providerOf [{ label := "K" }])
      (providerOf [{ label := "E" }]) (providerOf [{ label := "C" }]) docTest posAfterDot
      [3, 2, 1, 0] =
      some [{ label := "K" }, { label := "L" }, { label := "E" }, { label := "C" }] :=
  completion_fixed_merge_order (providerOf [{ label := "L" }]) (providerOf [{ label := "K" }])
    (providerOf [{ label := "E" }]) (providerOf [{ label := "C" }]) docTest posAfterDot
    [3, 2, 1, 0] (by decide) [{ label := "K" }] [{ label := "L" }] [{ label := "E" }]
    [{ label := "C" }] rfl rfl rfl rfl

/-- C5: a rejecting provider is isolated: the overall completion result is
still produced (the request never fails), containing the other three
providers' contributions in the fixed merge order, with the failing provider
contributing exactly zero items. -/
theorem provider_failure_isolation {ε : Type}
    (librarySymbolProvider keywordProvider environmentSymbolProvider
      localSymbolProvider : SymbolProviderModel ε)
    (document : LexedDocument) (position : Position) (order : List Nat)
    (horder : ∀ i, i < 4 → i ∈ order) :
    (∃ items, getCompletionItemsRun librarySymbolProvider keywordProvider
      environmentSymbolProvider localSymbolProvider document position order = some items) ∧
    (∀ e kws envs locs,
      librarySymbolProvider.getCompletionItems (completionContextAt document position) =
        Except.error e →
      keywordProvider.getCompletionItems (completionContextAt document position) =
        Except.ok kws →
      environmentSymbolProvider.getCompletionItems (completionContextAt document position) =
        Except.ok envs →
      localSymbolProvider.getCompletionItems (completionContextAt document position) =
        Except.ok locs →
      getCompletionItemsRun librarySymbolProvider keywordProvider environmentSymbolProvider
        localSymbolProvider document position order = some (kws ++ envs ++ locs)) ∧
    (∀ e libs envs locs,
      keywordProvider.getCompletionItems (completionContextAt document position) =
        Except.error e →
      librarySymbolProvider.getCompletionItems (completionContextAt document position) =
        Except.ok libs →
      environmentSymbolProvider.getCompletionItems (completionContextAt document position) =
        Except.ok envs →
      localSymbolProvider.getCompletionItems (completionContextAt document position) =
        Except.ok locs →
      getCompletionItemsRun librarySymbolProvider keywordProvider environmentSymbolProvider
        localSymbolProvider document position order = some (libs ++ envs ++ locs)) ∧
    (∀ e kws libs locs,
      environmentSymbolProvider.getCompletionItems (completionContextAt document position) =
        Except.error e →
      keywordProvider.getCompletionItems (completionContextAt document position) =
        Except.ok kws →
      librarySymbolProvider.getCompletionItems (completionContextAt document position) =
        Except.ok libs →
      localSymbolProvider.getCompletionItems (completionContextAt document position) =
        Except.ok locs →
      getCompletionItemsRun librarySymbolProvider keywordProvider environmentSymbolProvider
        localSymbolProvider document position order = some (kws ++ libs ++ locs)) ∧
    (∀ e kws libs envs,
      localSymbolProvider.getCompletionItems (completionContextAt document position) =
        Except.error e →
      keywordProvider.getCompletionItems (completionContextAt document position) =
        Except.ok kws →
      librarySymbolProvider.getCompletionItems (completionContextAt document position) =
        Except.ok libs →
      environmentSymbolProvider.getCompletionItems (completionContextAt document position) =
        Except.ok envs →
      getCompletionItemsRun librarySymbolProvider keywordProvider environmentSymbolProvider
        localSymbolProvider document position order = some (kws ++ libs ++ envs)) := by
  have heq := getCompletionItemsRun_eq librarySymbolProvider keywordProvider
    environmentSymbolProvider localSymbolProvider document position order horder
  refine ⟨⟨_, heq⟩, ?_, ?_, ?_, ?_⟩ <;>
    intro e xs ys zs h1 h2 h3 h4 <;>
    rw [heq, h1, h2, h3, h4] <;>
    simp [promiseCatch, EmptyCompletionItems]

/-- Witness for C5: a rejecting library provider contributes nothing while
keyword, environment and local results come through in order. -/
theorem provider_failure_isolation_witness :
    getCompletionItemsRun failingProviderU (providerOf [{ label := "K" }])
      (providerOf [{ label := "E" }]) (providerOf [{ label := "C" }]) docTest posAfterDot
      [0, 1, 2, 3] = some [{ label := "K" }, { label := "E" }, { label := "C" }] :=
  (provider_failure_isolation failingProviderU (providerOf [{ label := "K" }])
    (providerOf [{ label := "E" }]) (providerOf [{ label := "C" }]) docTest posAfterDot
    [0, 1, 2, 3] (by decide)).2.1 () [{ label := "K" }] [{ label := "E" }]
    [{ label := "C" }] rfl rfl rfl rfl

/-- C7: no public operation returns an absent value and no exception escapes
one: under any provider behaviour (rejections included), `getCompletionItems`
resolves to a list once every task settles, and `getHover` and
`getSignatureHelp` always fulfil with a hover / signature-help value (empty
sentinel or populated). -/
theorem public_operations_never_absent :
    (∀ (ε : Type) (librarySymbolProvider keywordProvider environmentSymbolProvider
        localSymbolProvider : SymbolProviderModel ε)
      (document : LexedDocument) (position : Position) (order : List Nat),
      (∀ i, i < 4 → i ∈ order) →
      ∃ items, getCompletionItemsRun librarySymbolProvider keywordProvider
        environmentSymbolProvider localSymbolProvider document position order = some items) ∧
    (∀ (ε : Type) (librarySymbolProvider : SymbolProviderModel ε)
      (document : LexedDocument) (position : Position),
      ∃ h, getHoverRun librarySymbolProvider document position = Except.ok h) ∧
    (∀ (ε InspOk InspErr : Type) (librarySymbolProvider : SymbolProviderModel ε)
      (maybeTriedInspection : Option (TriedResult InspOk InspErr))
      (maybeSignatureProviderContext : InspOk → Option SignatureProviderContext),
      ∃ sh, getSignatureHelpRun librarySymbolProvider maybeTriedInspection
        maybeSignatureProviderContext = Except.ok sh) := by
  refine ⟨?_, ?_, ?_⟩
  · intro ε lib kw env loc document position order horder
    exact ⟨_, getCompletionItemsRun_eq lib kw env loc document position order horder⟩
  · intro ε lib document position
    unfold getHoverRun
    cases maybeIdentifierAt document position with
    | none => exact ⟨EmptyHover, rfl⟩
    | some identifierToken =>
      simp only [promiseCaughtNull, awaitThen]
      cases promiseCatch (lib.getHover
          { range := getTokenRangeForPosition identifierToken position
            identifier := identifierToken.data }) none with
      | none => exact ⟨EmptyHover, rfl⟩
      | some h => exact ⟨h, rfl⟩
  · intro ε InspOk InspErr lib maybeTriedInspection ctxFn
    cases maybeTriedInspection with
    | none => exact ⟨EmptySignatureHelp, rfl⟩
    | some tried =>
      cases tried with
      | err e => exact ⟨EmptySignatureHelp, rfl⟩
      | ok inspected =>
        cases hctx : ctxFn inspected with
        | none =>
          exact ⟨EmptySignatureHelp, by simp only [getSignatureHelpRun, hctx]⟩
        | some context =>
          cases hname : context.maybeFunctionName with
          | none =>
            exact ⟨EmptySignatureHelp, by simp only [getSignatureHelpRun, hctx, hname]⟩
          | some fname =>
            exact ⟨(promiseCatch (lib.getSignatureHelp context) none).getD EmptySignatureHelp,
              by simp only [getSignatureHelpRun, hctx, hname, promiseCaughtNull, awaitThen]⟩

/-- Witness for C7: throwing providers on a concrete document still yield a
list, a hover and a signature help. -/
theorem public_operations_never_absent_witness :
    (∃ items, getCompletionItemsRun failingProviderU failingProviderU failingProviderU
      failingProviderU docTest posAfterDot [0, 1, 2, 3] = some items) ∧
    (∃ h, getHoverRun failingProviderU docTest posAfterDot = Except.ok h) ∧
    (∃ sh, getSignatureHelpRun failingProviderU
      (some (TriedResult.ok 0) : Option (TriedResult Nat Nat))
      (fun _ => some { maybeFunctionName := some "f" }) = Except.ok sh) :=
  ⟨public_operations_never_absent.1 Unit failingProviderU failingProviderU failingProviderU
      failingProviderU docTest posAfterDot [0, 1, 2, 3] (by decide),
   public_operations_never_absent.2.1 Unit failingProviderU docTest posAfterDot,
   public_operations_never_absent.2.2 Unit Nat Nat failingProviderU
      (some (TriedResult.ok 0)) (fun _ => some { maybeFunctionName := some "f" })⟩

/-- C9: the position resolver agrees with its specification: it returns the
first token on the cursor's line whose inclusive span contains the cursor
offset; failing that, when the character immediately preceding the cursor is
a literal dot and an identifier token ends exactly at the dot's position, it
returns that identifier extended with the trailing dot and an end offset one
larger; otherwise no token.  Token spans are well-formed (start ≤ end), as
the lexer guarantees. -/
theorem maybeTokenAt_agrees_with_spec (document : LexedDocument) (position : Position)
    (hwf : ∀ l, l ∈ document.tokenLines → ∀ t, t ∈ l → t.positionStart ≤ t.positionEnd) :
    maybeTokenAt document position = maybeTokenAtSpec document position := by
  unfold maybeTokenAt maybeTokenAtSpec
  cases hline : maybeLineTokensAt document position with
  | none => rfl
  | some lineTokens =>
    simp only []
    cases hfind : lineTokens.find? (fun token =>
        decide (token.positionStart ≤ position.character ∧
          position.character ≤ token.positionEnd)) with
    | some token => rfl
    | none =>
      by_cases hdot : textImmediatelyBefore document position = "."
      · rw [if_pos hdot, if_pos hdot]
        have hc : 1 ≤ position.character := textImmediatelyBefore_dot_pos document position hdot
        have hmem : lineTokens ∈ document.tokenLines := by
          simp only [maybeLineTokensAt] at hline
          exact list_get?_mem document.tokenLines position.line lineTokens hline
        have hcong : lineTokens.find? (fun token =>
            decide ((token.positionStart ≤ position.character - 1 ∧
              position.character - 1 ≤ token.positionEnd) ∧
              token.kind = LineTokenKind.Identifier)) =
            lineTokens.find? (fun token =>
            decide (token.kind = LineTokenKind.Identifier ∧
              token.positionEnd = position.character - 1)) := by
          refine list_find?_congr lineTokens (fun t ht => ?_)
          have hnc : ¬(t.positionStart ≤ position.character ∧
              position.character ≤ t.positionEnd) :=
            of_decide_eq_false (list_find?_none lineTokens hfind t ht)
          have hwt : t.positionStart ≤ t.positionEnd := hwf lineTokens hmem t ht
          rw [decide_eq_decide]
          constructor
          · rintro ⟨⟨h1, h2⟩, hk⟩
            exact ⟨hk, by omega⟩
          · rintro ⟨hk, he⟩
            exact ⟨⟨by omega, by omega⟩, hk⟩
        rw [hcong]
      · rw [if_neg hdot, if_neg hdot]

/-- Witness for C9: well-formed spans on the concrete `Test.` document, where
the resolver synthesizes the dotted identifier token. -/
theorem maybeTokenAt_agrees_with_spec_witness :
    (∀ l, l ∈ docTest.tokenLines → ∀ t, t ∈ l → t.positionStart ≤ t.positionEnd) ∧
    maybeTokenAt docTest posAfterDot = maybeTokenAtSpec docTest posAfterDot :=
  ⟨by decide, maybeTokenAt_agrees_with_spec docTest posAfterDot (by decide)⟩

/-- C2: when `tryLex` fails for a document, `getTriedParse` returns that very
Err item unchanged — same error payload, stage tag `Lexer`, not re-wrapped —
with `trySnapshot` and `tryParse` never invoked, and a repeated call returns
the identical cached Err with no state change at all. -/
theorem lex_error_short_circuit {T : EngineTypes} (E : Engine T) (d : TextDocument)
    (loc : Option String) (s : CacheState T) (e : T.LexError)
    (h1 : s.lexerStateCache d.uri = none)
    (h2 : s.lexerSnapshotCache d.uri = none)
    (h3 : s.parserCache d.uri = none)
    (hlex : E.tryLex (getSettings loc none) d.text = TriedResult.err e) :
    (getTriedParse E d loc s).1 = TCacheItem.lexErr e ∧
    (getTriedParse E d loc s).1.stage = CacheStageKind.Lexer ∧
    (getTriedParse E d loc s).2.snapshotCount = s.snapshotCount ∧
    (getTriedParse E d loc s).2.parseCount = s.parseCount ∧
    getTriedParse E d loc (getTriedParse E d loc s).2 =
      (TCacheItem.lexErr e, (getTriedParse E d loc s).2) := by
  simp [getTriedParse, getOrCreate, createParserCacheItem, getTriedLexerSnapshot,
    createLexerSnapshotCacheItem, getLexerState, createLexerCacheItem,
    h1, h2, h3, hlex, TCacheItem.stage]

/-- Witness for C2: the failing-lexer engine on a fresh document. -/
theorem lex_error_short_circuit_witness :
    (getTriedParse engineLexFails docA none (initialCacheState NatEngineTypes)).1 =
      TCacheItem.lexErr 9 ∧
    (getTriedParse engineLexFails docA none (initialCacheState NatEngineTypes)).1.stage =
      CacheStageKind.Lexer ∧
    (getTriedParse engineLexFails docA none
      (initialCacheState NatEngineTypes)).2.snapshotCount =
      (initialCacheState NatEngineTypes).snapshotCount ∧
    (getTriedParse engineLexFails docA none (initialCacheState NatEngineTypes)).2.parseCount =
      (initialCacheState NatEngineTypes).parseCount ∧
    getTriedParse engineLexFails docA none
      (getTriedParse engineLexFails docA none (initialCacheState NatEngineTypes)).2 =
      (TCacheItem.lexErr 9,
        (getTriedParse engineLexFails docA none (initialCacheState NatEngineTypes)).2) :=
  lex_error_short_circuit engineLexFails docA none (initialCacheState NatEngineTypes) 9
    rfl rfl rfl rfl

/-- C1: calling any of the three document-keyed pipeline getters twice on a
previously unseen document leaves the state of the first call untouched and
returns the identical stored item — Ok or Err — and across the pair the
engine computation that produced the stored outcome (the one matching the
item's stage tag) runs exactly once. -/
theorem pipeline_getter_idempotent {T : EngineTypes} (E : Engine T) (d : TextDocument)
    (loc : Option String) (s : CacheState T)
    (h1 : s.lexerStateCache d.uri = none)
    (h2 : s.lexerSnapshotCache d.uri = none)
    (h3 : s.parserCache d.uri = none) :
    (getLexerState E d loc (getLexerState E d loc s).2 = getLexerState E d loc s ∧
      stageCount (getLexerState E d loc s).1.stage (getLexerState E d loc s).2 =
        stageCount (getLexerState E d loc s).1.stage s + 1) ∧
    (getTriedLexerSnapshot E d loc (getTriedLexerSnapshot E d loc s).2 =
        getTriedLexerSnapshot E d loc s ∧
      stageCount (getTriedLexerSnapshot E d loc s).1.stage
          (getTriedLexerSnapshot E d loc s).2 =
        stageCount (getTriedLexerSnapshot E d loc s).1.stage s + 1) ∧
    (getTriedParse E d loc (getTriedParse E d loc s).2 = getTriedParse E d loc s ∧
      stageCount (getTriedParse E d loc s).1.stage (getTriedParse E d loc s).2 =
        stageCount (getTriedParse E d loc s).1.stage s + 1) := by
  cases hlex : E.tryLex (getSettings loc none) d.text with
  | ok v =>
    cases hsnap : E.trySnapshot v with
    | ok w =>
      cases hparse : E.tryParse (getSettings loc none) w with
      | ok x =>
        simp [getTriedParse, getOrCreate, createParserCacheItem, getTriedLexerSnapshot,
          createLexerSnapshotCacheItem, getLexerState, createLexerCacheItem,
          h1, h2, h3, hlex, hsnap, hparse, TCacheItem.stage, stageCount]
      | err xe =>
        simp [getTriedParse, getOrCreate, createParserCacheItem, getTriedLexerSnapshot,
          createLexerSnapshotCacheItem, getLexerState, createLexerCacheItem,
          h1, h2, h3, hlex, hsnap, hparse, TCacheItem.stage, stageCount]
    | err we =>
      simp [getTriedParse, getOrCreate, createParserCacheItem, getTriedLexerSnapshot,
        createLexerSnapshotCacheItem, getLexerState, createLexerCacheItem,
        h1, h2, h3, hlex, hsnap, TCacheItem.stage, stageCount]
  | err ve =>
    simp [getTriedParse, getOrCreate, createParserCacheItem, getTriedLexerSnapshot,
      createLexerSnapshotCacheItem, getLexerState, createLexerCacheItem,
      h1, h2, h3, hlex, TCacheItem.stage, stageCount]

/-- Witness for C1: the failing-lexer engine on a fresh document, so the
memoized outcome of every getter is the lexer Err. -/
theorem pipeline_getter_idempotent_witness :
    (getLexerState engineLexFails docA none
        (getLexerState engineLexFails docA none (initialCacheState NatEngineTypes)).2 =
        getLexerState engineLexFails docA none (initialCacheState NatEngineTypes) ∧
      stageCount (getLexerState engineLexFails docA none
            (initialCacheState NatEngineTypes)).1.stage
          (getLexerState engineLexFails docA none (initialCacheState NatEngineTypes)).2 =
        stageCount (getLexerState engineLexFails docA none
            (initialCacheState NatEngineTypes)).1.stage (initialCacheState NatEngineTypes) + 1) ∧
    (getTriedLexerSnapshot engineLexFails docA none
        (getTriedLexerSnapshot engineLexFails docA none
          (initialCacheState NatEngineTypes)).2 =
        getTriedLexerSnapshot engineLexFails docA none (initialCacheState NatEngineTypes) ∧
      stageCount (getTriedLexerSnapshot engineLexFails docA none
            (initialCacheState NatEngineTypes)).1.stage
          (getTriedLexerSnapshot engineLexFails docA none
            (initialCacheState NatEngineTypes)).2 =
        stageCount (getTriedLexerSnapshot engineLexFails docA none
            (initialCacheState NatEngineTypes)).1.stage (initialCacheState NatEngineTypes) + 1) ∧
    (getTriedParse engineLexFails docA none
        (getTriedParse engineLexFails docA none (initialCacheState NatEngineTypes)).2 =
        getTriedParse engineLexFails docA none (initialCacheState NatEngineTypes) ∧
      stageCount (getTriedParse engineLexFails docA none
            (initialCacheState NatEngineTypes)).1.stage
          (getTriedParse engineLexFails docA none (initialCacheState NatEngineTypes)).2 =
        stageCount (getTriedParse engineLexFails docA none
            (initialCacheState NatEngineTypes)).1.stage (initialCacheState NatEngineTypes) + 1) :=
  pipeline_getter_idempotent engineLexFails docA none (initialCacheState NatEngineTypes)
    rfl rfl rfl

/-- C8: `update` is exactly `close`; both unconditionally evict all four
stage maps' entries for the document, and the next call of any getter for
that document recomputes from scratch — the total engine invocation count
strictly increases. -/
theorem invalidation_evicts_and_recomputes {T : EngineTypes} (E : Engine T)
    (d : TextDocument) (loc : Option String) (res : Option T.Resolver) (pos : PosKey)
    (changes : List TextDocumentContentChangeEvent) (version : Nat) (s : CacheState T) :
    update d changes version s = close d s ∧
    (close d s).lexerStateCache d.uri = none ∧
    (close d s).lexerSnapshotCache d.uri = none ∧
    (close d s).parserCache d.uri = none ∧
    (close d s).inspectionCache d.uri = none ∧
    totalEngineCount s < totalEngineCount (getLexerState E d loc (close d s)).2 ∧
    totalEngineCount s < totalEngineCount (getTriedLexerSnapshot E d loc (close d s)).2 ∧
    totalEngineCount s < totalEngineCount (getTriedParse E d loc (close d s)).2 ∧
    totalEngineCount s <
      totalEngineCount (getTriedInspection E d pos loc res (close d s)).2 := by
  refine ⟨rfl, by simp [close], by simp [close], by simp [close], by simp [close],
    ?_, ?_, ?_, ?_⟩
  · cases hlex : E.tryLex (getSettings loc none) d.text <;>
      simp [getLexerState, getOrCreate, createLexerCacheItem, close, hlex,
        totalEngineCount]
  · cases hlex : E.tryLex (getSettings loc none) d.text with
    | ok v =>
      cases hsnap : E.trySnapshot v <;>
        simp [getTriedLexerSnapshot, getOrCreate, createLexerSnapshotCacheItem,
          getLexerState, createLexerCacheItem, close, hlex, hsnap, totalEngineCount] <;>
        omega
    | err ve =>
      simp [getTriedLexerSnapshot, getOrCreate, createLexerSnapshotCacheItem,
        getLexerState, createLexerCacheItem, close, hlex, totalEngineCount]
  · cases hlex : E.tryLex (getSettings loc none) d.text with
    | ok v =>
      cases hsnap : E.trySnapshot v with
      | ok w =>
        cases hparse : E.tryParse (getSettings loc none) w <;>
          simp [getTriedParse, getOrCreate, createParserCacheItem, getTriedLexerSnapshot,
            createLexerSnapshotCacheItem, getLexerState, createLexerCacheItem, close,
            hlex, hsnap, hparse, totalEngineCount] <;> omega
      | err we =>
        simp [getTriedParse, getOrCreate, createParserCacheItem, getTriedLexerSnapshot,
          createLexerSnapshotCacheItem, getLexerState, createLexerCacheItem, close,
          hlex, hsnap, totalEngineCount]
        omega
    | err ve =>
      simp [getTriedParse, getOrCreate, createParserCacheItem, getTriedLexerSnapshot,
        createLexerSnapshotCacheItem, getLexerState, createLexerCacheItem, close,
        hlex, totalEngineCount]
  · cases hlex : E.tryLex (getSettings loc none) d.text with
    | ok v =>
      cases hsnap : E.trySnapshot v with
      | ok w =>
        cases hparse : E.tryParse (getSettings loc none) w with
        | ok x =>
          cases hinsp : E.tryInspection (getSettings loc res) (TriedResult.ok x)
              { lineNumber := pos.line, lineCodeUnit := pos.character } <;>
            simp [getTriedInspection, positionCacheOf, createTriedInspection,
              getTriedParse, getOrCreate, createParserCacheItem, getTriedLexerSnapshot,
              createLexerSnapshotCacheItem, getLexerState, createLexerCacheItem, close,
              hlex, hsnap, hparse, hinsp, totalEngineCount] <;> omega
        | err xe =>
          cases hinsp : E.tryInspection (getSettings loc res) (TriedResult.err xe)
              { lineNumber := pos.line, lineCodeUnit := pos.character } <;>
            simp [getTriedInspection, positionCacheOf, createTriedInspection,
              getTriedParse, getOrCreate, createParserCacheItem, getTriedLexerSnapshot,
              createLexerSnapshotCacheItem, getLexerState, createLexerCacheItem, close,
              hlex, hsnap, hparse, hinsp, totalEngineCount] <;> omega
      | err we =>
        simp [getTriedInspection, positionCacheOf, createTriedInspection,
          getTriedParse, getOrCreate, createParserCacheItem, getTriedLexerSnapshot,
          createLexerSnapshotCacheItem, getLexerState, createLexerCacheItem, close,
          hlex, hsnap, totalEngineCount]
        omega
    | err ve =>
      simp [getTriedInspection, positionCacheOf, createTriedInspection,
        getTriedParse, getOrCreate, createParserCacheItem, getTriedLexerSnapshot,
        createLexerSnapshotCacheItem, getLexerState, createLexerCacheItem, close,
        hlex, totalEngineCount]

/-- C3 counterexample: with successful lexing and snapshotting but a failing
parse, `getTriedInspection` does not return the parse failure — it invokes
the inspection engine once (on the failing tried parse) and returns an
`Inspection`-stage item. -/
theorem parse_error_inspection_counterexample :
    (getTriedParse engineParseFails docA none (initialCacheState NatEngineTypes)).1 =
      TCacheItem.parserErr 7 ∧
    (getTriedInspection engineParseFails docA { id := 0, line := 0, character := 0 } none
        none (initialCacheState NatEngineTypes)).1 = TCacheItem.inspectionOk 5 ∧
    (getTriedInspection engineParseFails docA { id := 0, line := 0, character := 0 } none
        none (initialCacheState NatEngineTypes)).2.inspectionCount = 1 :=
  ⟨rfl, rfl, rfl⟩

/-- C3 amended: `getTriedInspection` returns an upstream (`Lexer` or
`LexerSnapshot`) failure directly, without invoking the inspection engine;
whenever the pipeline reached the parse stage — parse Ok or parse Err alike —
it invokes `tryInspection` exactly once, passing the tried parse, and
returns the `Inspection`-tagged outcome. -/
theorem inspection_gating_amended {T : EngineTypes} (E : Engine T) (d : TextDocument)
    (pos : PosKey) (loc : Option String) (res : Option T.Resolver) (s : CacheState T)
    (hmiss : positionCacheOf s d.uri pos = none) :
    (parserStageResult? (getTriedParse E d loc s).1 = none →
      (getTriedInspection E d pos loc res s).1 = (getTriedParse E d loc s).1 ∧
      (getTriedInspection E d pos loc res s).2.inspectionCount =
        (getTriedParse E d loc s).2.inspectionCount) ∧
    (∀ tp, parserStageResult? (getTriedParse E d loc s).1 = some tp →
      (getTriedInspection E d pos loc res s).1 =
        (match E.tryInspection (getSettings loc res) tp
            { lineNumber := pos.line, lineCodeUnit := pos.character } with
          | .ok i => TCacheItem.inspectionOk i
          | .err er => TCacheItem.inspectionErr er) ∧
      (getTriedInspection E d pos loc res s).2.inspectionCount =
        (getTriedParse E d loc s).2.inspectionCount + 1) := by
  constructor
  · intro hnone
    cases hp : (getTriedParse E d loc s).1 with
    | parserOk v =>
      rw [hp] at hnone
      simp [parserStageResult?] at hnone
    | parserErr e =>
      rw [hp] at hnone
      simp [parserStageResult?] at hnone
    | lexOk v => simp [getTriedInspection, hmiss, createTriedInspection, hp]
    | lexErr e => simp [getTriedInspection, hmiss, createTriedInspection, hp]
    | snapshotOk v => simp [getTriedInspection, hmiss, createTriedInspection, hp]
    | snapshotErr e => simp [getTriedInspection, hmiss, createTriedInspection, hp]
    | inspectionOk v => simp [getTriedInspection, hmiss, createTriedInspection, hp]
    | inspectionErr e => simp [getTriedInspection, hmiss, createTriedInspection, hp]
  · intro tp htp
    cases hp : (getTriedParse E d loc s).1 with
    | parserOk v =>
      rw [hp] at htp
      simp only [parserStageResult?, Option.some.injEq] at htp
      subst htp
      simp [getTriedInspection, hmiss, createTriedInspection, hp]
    | parserErr e =>
      rw [hp] at htp
      simp only [parserStageResult?, Option.some.injEq] at htp
      subst htp
      simp [getTriedInspection, hmiss, createTriedInspection, hp]
    | lexOk v =>
      rw [hp] at htp
      simp [parserStageResult?] at htp
    | lexErr e =>
      rw [hp] at htp
      simp [parserStageResult?] at htp
    | snapshotOk v =>
      rw [hp] at htp
      simp [parserStageResult?] at htp
    | snapshotErr e =>
      rw [hp] at htp
      simp [parserStageResult?] at htp
    | inspectionOk v =>
      rw [hp] at htp
      simp [parserStageResult?] at htp
    | inspectionErr e =>
      rw [hp] at htp
      simp [parserStageResult?] at htp

/-- Witness for C3 amended: the failing-parse engine on a fresh document
exercises the parse-Err branch of the amended statement. -/
theorem inspection_gating_amended_witness :
    (getTriedInspection engineParseFails docA { id := 0, line := 0, character := 0 } none
        none (initialCacheState NatEngineTypes)).1 =
      (match engineParseFails.tryInspection (getSettings none none) (TriedResult.err 7)
          { lineNumber := 0, lineCodeUnit := 0 } with
        | .ok i => TCacheItem.inspectionOk i
        | .err er => TCacheItem.inspectionErr er) ∧
    (getTriedInspection engineParseFails docA { id := 0, line := 0, character := 0 } none
        none (initialCacheState NatEngineTypes)).2.inspectionCount =
      (getTriedParse engineParseFails docA none
        (initialCacheState NatEngineTypes)).2.inspectionCount + 1 :=
  (inspection_gating_amended engineParseFails docA { id := 0, line := 0, character := 0 }
    none none (initialCacheState NatEngineTypes) rfl).2 (TriedResult.err 7) rfl

/-- The empty caches are trivially well-staged. -/
theorem wellStaged_initial (T : EngineTypes) : WellStaged (initialCacheState T) :=
  ⟨fun _ _ h => Option.noConfusion h, fun _ _ h => Option.noConfusion h,
   fun _ _ h => Option.noConfusion h, fun _ _ _ _ h => Option.noConfusion h⟩

/-- Well-stagedness only depends on the four maps, not on the counters. -/
theorem wellStaged_counts {T : EngineTypes} {s₁ s₂ : CacheState T}
    (h : WellStaged s₁)
    (hl : s₂.lexerStateCache = s₁.lexerStateCache)
    (hs : s₂.lexerSnapshotCache = s₁.lexerSnapshotCache)
    (hp : s₂.parserCache = s₁.parserCache)
    (hi : s₂.inspectionCache = s₁.inspectionCache) : WellStaged s₂ := by
  constructor
  · intro u i hu
    rw [hl] at hu
    exact h.lex u i hu
  · intro u i hu hok
    rw [hs] at hu
    exact h.snapshot u i hu hok
  · intro u i hu hok
    rw [hp] at hu
    exact h.parse u i hu hok
  · intro u m p i hu hpm hok
    rw [hi] at hu
    exact h.inspection u m p i hu hpm hok

/-- Storing a stage-`Lexer` item keeps the lexer cache well-staged. -/
theorem wellStaged_set_lex {T : EngineTypes} {s : CacheState T} (h : WellStaged s)
    (uri : String) (item : TCacheItem T) (hitem : item.stage = CacheStageKind.Lexer) :
    WellStaged { s with
      lexerStateCache := fun u => if u = uri then some item else s.lexerStateCache u } := by
  constructor
  · intro u i hu
    by_cases huri : u = uri
    · subst huri
      simp at hu
      rw [← hu]
      exact hitem
    · simp [huri] at hu
      exact h.lex u i hu
  · exact h.snapshot
  · exact h.parse
  · exact h.inspection

/-- Storing an item that is `LexerSnapshot`-staged whenever Ok keeps the
snapshot cache well-staged. -/
theorem wellStaged_set_snapshot {T : EngineTypes} {s : CacheState T} (h : WellStaged s)
    (uri : String) (item : TCacheItem T)
    (hitem : item.isOk = true → item.stage = CacheStageKind.LexerSnapshot) :
    WellStaged { s with
      lexerSnapshotCache := fun u =>
        if u = uri then some item else s.lexerSnapshotCache u } := by
  constructor
  · exact h.lex
  · intro u i hu hok
    by_cases huri : u = uri
    · subst huri
      simp at hu
      rw [← hu] at hok ⊢
      exact hitem hok
    · simp [huri] at hu
      exact h.snapshot u i hu hok
  · exact h.parse
  · exact h.inspection

/-- Storing an item that is `Parser`-staged whenever Ok keeps the parser
cache well-staged. -/
theorem wellStaged_set_parse {T : EngineTypes} {s : CacheState T} (h : WellStaged s)
    (uri : String) (item : TCacheItem T)
    (hitem : item.isOk = true → item.stage = CacheStageKind.Parser) :
    WellStaged { s with
      parserCache := fun u => if u = uri then some item else s.parserCache u } := by
  constructor
  · exact h.lex
  · exact h.snapshot
  · intro u i hu hok
    by_cases huri : u = uri
    · subst huri
      simp at hu
      rw [← hu] at hok ⊢
      exact hitem hok
    · simp [huri] at hu
      exact h.parse u i hu hok
  · exact h.inspection

/-- Extending a well-staged position map with an item that is
`Inspection`-staged whenever Ok keeps the inspection cache well-staged. -/
theorem wellStaged_set_inspection {T : EngineTypes} {s : CacheState T} (h : WellStaged s)
    (uri : String) (inner : PosKey → Option (TCacheItem T))
    (hinner : ∀ p i, inner p = some i → i.isOk = true →
      i.stage = CacheStageKind.Inspection)
    (pos : PosKey) (item : TCacheItem T)
    (hitem : item.isOk = true → item.stage = CacheStageKind.Inspection) :
    WellStaged { s with
      inspectionCache := fun u =>
        if u = uri then some (fun p => if p = pos then some item else inner p)
        else s.inspectionCache u } := by
  constructor
  · exact h.lex
  · exact h.snapshot
  · exact h.parse
  · intro u m p i hu hpm hok
    by_cases huri : u = uri
    · subst huri
      simp at hu
      rw [← hu] at hpm
      by_cases hpos : p = pos
      · subst hpos
        simp at hpm
        rw [← hpm] at hok ⊢
        exact hitem hok
      · simp [hpos] at hpm
        exact hinner p i hpm hok
    · simp [huri] at hu
      exact h.inspection u m p i hu hpm hok

/-- The stored position map of a well-staged state is itself well-staged. -/
theorem positionCacheOf_wellStaged {T : EngineTypes} {s : CacheState T} (h : WellStaged s)
    (uri : String) :
    ∀ p i, positionCacheOf s uri p = some i → i.isOk = true →
      i.stage = CacheStageKind.Inspection := by
  intro p i hp hok
  unfold positionCacheOf at hp
  cases hm : s.inspectionCache uri with
  | none =>
    rw [hm] at hp
    exact Option.noConfusion hp
  | some m =>
    rw [hm] at hp
    exact h.inspection uri m p i hm hp hok

/-- The eviction of `close` preserves well-stagedness. -/
theorem close_preserves_wellStaged {T : EngineTypes} (d : TextDocument) (s : CacheState T)
    (h : WellStaged s) : WellStaged (close d s) := by
  constructor
  · intro u i hu
    by_cases huri : u = d.uri
    · simp [close, huri] at hu
    · simp [close, huri] at hu
      exact h.lex u i hu
  · intro u i hu hok
    by_cases huri : u = d.uri
    · simp [close, huri] at hu
    · simp [close, huri] at hu
      exact h.snapshot u i hu hok
  · intro u i hu hok
    by_cases huri : u = d.uri
    · simp [close, huri] at hu
    · simp [close, huri] at hu
      exact h.parse u i hu hok
  · intro u m p i hu hpm hok
    by_cases huri : u = d.uri
    · simp [close, huri] at hu
    · simp [close, huri] at hu
      exact h.inspection u m p i hu hpm hok

/-- `getLexerState` returns a stage-`Lexer` item and preserves
well-stagedness. -/
theorem getLexerState_wellStaged {T : EngineTypes} (E : Engine T) (d : TextDocument)
    (loc : Option String) (s : CacheState T) (h : WellStaged s) :
    (getLexerState E d loc s).1.stage = CacheStageKind.Lexer ∧
    WellStaged (getLexerState E d loc s).2 := by
  cases hc : s.lexerStateCache d.uri with
  | some v =>
    have heq : getLexerState E d loc s = (v, s) := by
      simp [getLexerState, getOrCreate, hc]
    rw [heq]
    exact ⟨h.lex d.uri v hc, h⟩
  | none =>
    have hstage : (createLexerCacheItem E d loc s).1.stage = CacheStageKind.Lexer := by
      cases hlex : E.tryLex (getSettings loc none) d.text <;>
        simp [createLexerCacheItem, hlex, TCacheItem.stage]
    have heq : getLexerState E d loc s =
        ((createLexerCacheItem E d loc s).1,
         { (createLexerCacheItem E d loc s).2 with
           lexerStateCache := fun u =>
             if u = d.uri then some (createLexerCacheItem E d loc s).1
             else (createLexerCacheItem E d loc s).2.lexerStateCache u }) := by
      simp [getLexerState, getOrCreate, hc]
    rw [heq]
    refine ⟨hstage, ?_⟩
    have hws2 : WellStaged (createLexerCacheItem E d loc s).2 :=
      wellStaged_counts h rfl rfl rfl rfl
    exact wellStaged_set_lex hws2 d.uri (createLexerCacheItem E d loc s).1 hstage

/-- The snapshot factory yields an item that is `LexerSnapshot`-staged
whenever Ok, and a well-staged state. -/
theorem createLexerSnapshotCacheItem_spec {T : EngineTypes} (E : Engine T)
    (d : TextDocument) (loc : Option String) (s : CacheState T) (h : WellStaged s) :
    ((createLexerSnapshotCacheItem E d loc s).1.isOk = true →
      (createLexerSnapshotCacheItem E d loc s).1.stage = CacheStageKind.LexerSnapshot) ∧
    WellStaged (createLexerSnapshotCacheItem E d loc s).2 := by
  obtain ⟨hLstage, hLws⟩ := getLexerState_wellStaged E d loc s h
  cases hr : (getLexerState E d loc s).1 with
  | lexOk lv =>
    simp only [createLexerSnapshotCacheItem, hr]
    cases hsnap : E.trySnapshot lv with
    | ok w => exact ⟨fun _ => rfl, wellStaged_counts hLws rfl rfl rfl rfl⟩
    | err e => exact ⟨(fun hok => nomatch hok), wellStaged_counts hLws rfl rfl rfl rfl⟩
  | lexErr e =>
    simp only [createLexerSnapshotCacheItem, hr]
    exact ⟨(fun hok => nomatch hok), hLws⟩
  | snapshotOk v =>
    rw [hr] at hLstage
    simp [TCacheItem.stage] at hLstage
  | snapshotErr e =>
    rw [hr] at hLstage
    simp [TCacheItem.stage] at hLstage
  | parserOk v =>
    rw [hr] at hLstage
    simp [TCacheItem.stage] at hLstage
  | parserErr e =>
    rw [hr] at hLstage
    simp [TCacheItem.stage] at hLstage
  | inspectionOk v =>
    rw [hr] at hLstage
    simp [TCacheItem.stage] at hLstage
  | inspectionErr e =>
    rw [hr] at hLstage
    simp [TCacheItem.stage] at hLstage

/-- `getTriedLexerSnapshot` returns an item that is `LexerSnapshot`-staged
whenever Ok and preserves well-stagedness. -/
theorem getTriedLexerSnapshot_wellStaged {T : EngineTypes} (E : Engine T)
    (d : TextDocument) (loc : Option String) (s : CacheState T) (h : WellStaged s) :
    ((getTriedLexerSnapshot E d loc s).1.isOk = true →
      (getTriedLexerSnapshot E d loc s).1.stage = CacheStageKind.LexerSnapshot) ∧
    WellStaged (getTriedLexerSnapshot E d loc s).2 := by
  cases hc : s.lexerSnapshotCache d.uri with
  | some v =>
    have heq : getTriedLexerSnapshot E d loc s = (v, s) := by
      simp [getTriedLexerSnapshot, getOrCreate, hc]
    rw [heq]
    exact ⟨h.snapshot d.uri v hc, h⟩
  | none =>
    obtain ⟨hspec, hws⟩ := createLexerSnapshotCacheItem_spec E d loc s h
    have heq : getTriedLexerSnapshot E d loc s =
        ((createLexerSnapshotCacheItem E d loc s).1,
         { (createLexerSnapshotCacheItem E d loc s).2 with
           lexerSnapshotCache := fun u =>
             if u = d.uri then some (createLexerSnapshotCacheItem E d loc s).1
             else (createLexerSnapshotCacheItem E d loc s).2.lexerSnapshotCache u }) := by
      simp [getTriedLexerSnapshot, getOrCreate, hc]
    rw [heq]
    exact ⟨hspec,
      wellStaged_set_snapshot hws d.uri (createLexerSnapshotCacheItem E d loc s).1 hspec⟩

/-- The parse factory yields an item that is `Parser`-staged whenever Ok,
and a well-staged state. -/
theorem createParserCacheItem_spec {T : EngineTypes} (E : Engine T) (d : TextDocument)
    (loc : Option String) (s : CacheState T) (h : WellStaged s) :
    ((createParserCacheItem E d loc s).1.isOk = true →
      (createParserCacheItem E d loc s).1.stage = CacheStageKind.Parser) ∧
    WellStaged (createParserCacheItem E d loc s).2 := by
  obtain ⟨hSspec, hSws⟩ := getTriedLexerSnapshot_wellStaged E d loc s h
  cases hr : (getTriedLexerSnapshot E d loc s).1 with
  | snapshotOk w =>
    simp only [createParserCacheItem, hr]
    cases hparse : E.tryParse (getSettings loc none) w with
    | ok x => exact ⟨fun _ => rfl, wellStaged_counts hSws rfl rfl rfl rfl⟩
    | err e => exact ⟨(fun hok => nomatch hok), wellStaged_counts hSws rfl rfl rfl rfl⟩
  | lexErr e =>
    simp only [createParserCacheItem, hr]
    exact ⟨(fun hok => nomatch hok), hSws⟩
  | snapshotErr e =>
    simp only [createParserCacheItem, hr]
    exact ⟨(fun hok => nomatch hok), hSws⟩
  | parserErr e =>
    simp only [createParserCacheItem, hr]
    exact ⟨(fun hok => nomatch hok), hSws⟩
  | inspectionErr e =>
    simp only [createParserCacheItem, hr]
    exact ⟨(fun hok => nomatch hok), hSws⟩
  | lexOk v =>
    have := hSspec (by rw [hr]; rfl)
    rw [hr] at this
    simp [TCacheItem.stage] at this
  | parserOk v =>
    have := hSspec (by rw [hr]; rfl)
    rw [hr] at this
    simp [TCacheItem.stage] at this
  | inspectionOk v =>
    have := hSspec (by rw [hr]; rfl)
    rw [hr] at this
    simp [TCacheItem.stage] at this

/-- `getTriedParse` returns an item that is `Parser`-staged whenever Ok and
preserves well-stagedness. -/
theorem getTriedParse_wellStaged {T : EngineTypes} (E : Engine T) (d : TextDocument)
    (loc : Option String) (s : CacheState T) (h : WellStaged s) :
    ((getTriedParse E d loc s).1.isOk = true →
      (getTriedParse E d loc s).1.stage = CacheStageKind.Parser) ∧
    WellStaged (getTriedParse E d loc s).2 := by
  cases hc : s.parserCache d.uri with
  | some v =>
    have heq : getTriedParse E d loc s = (v, s) := by
      simp [getTriedParse, getOrCreate, hc]
    rw [heq]
    exact ⟨h.parse d.uri v hc, h⟩
  | none =>
    obtain ⟨hspec, hws⟩ := createParserCacheItem_spec E d loc s h
    have heq : getTriedParse E d loc s =
        ((createParserCacheItem E d loc s).1,
         { (createParserCacheItem E d loc s).2 with
           parserCache := fun u =>
             if u = d.uri then some (createParserCacheItem E d loc s).1
             else (createParserCacheItem E d loc s).2.parserCache u }) := by
      simp [getTriedParse, getOrCreate, hc]
    rw [heq]
    exact ⟨hspec,
      wellStaged_set_parse hws d.uri (createParserCacheItem E d loc s).1 hspec⟩

/-- The inspection factory yields an item that is `Inspection`-staged
whenever Ok, and a well-staged state. -/
theorem createTriedInspection_spec {T : EngineTypes} (E : Engine T) (d : TextDocument)
    (pos : PosKey) (loc : Option String) (res : Option T.Resolver) (s : CacheState T)
    (h : WellStaged s) :
    ((createTriedInspection E d pos loc res s).1.isOk = true →
      (createTriedInspection E d pos loc res s).1.stage = CacheStageKind.Inspection) ∧
    WellStaged (createTriedInspection E d pos loc res s).2 := by
  obtain ⟨hPspec, hPws⟩ := getTriedParse_wellStaged E d loc s h
  cases hr : (getTriedParse E d loc s).1 with
  | parserOk v =>
    simp only [createTriedInspection, hr]
    cases hinsp : E.tryInspection (getSettings loc res) (TriedResult.ok v)
        { lineNumber := pos.line, lineCodeUnit := pos.character } with
    | ok i => exact ⟨fun _ => rfl, wellStaged_counts hPws rfl rfl rfl rfl⟩
    | err e => exact ⟨(fun hok => nomatch hok), wellStaged_counts hPws rfl rfl rfl rfl⟩
  | parserErr e =>
    simp only [createTriedInspection, hr]
    cases hinsp : E.tryInspection (getSettings loc res) (TriedResult.err e)
        { lineNumber := pos.line, lineCodeUnit := pos.character } with
    | ok i => exact ⟨fun _ => rfl, wellStaged_counts hPws rfl rfl rfl rfl⟩
    | err er => exact ⟨(fun hok => nomatch hok), wellStaged_counts hPws rfl rfl rfl rfl⟩
  | lexErr e =>
    simp only [createTriedInspection, hr]
    exact ⟨(fun hok => nomatch hok), hPws⟩
  | snapshotErr e =>
    simp only [createTriedInspection, hr]
    exact ⟨(fun hok => nomatch hok), hPws⟩
  | inspectionErr e =>
    simp only [createTriedInspection, hr]
    exact ⟨(fun hok => nomatch hok), hPws⟩
  | lexOk v =>
    have := hPspec (by rw [hr]; rfl)
    rw [hr] at this
    simp [TCacheItem.stage] at this
  | snapshotOk v =>
    have := hPspec (by rw [hr]; rfl)
    rw [hr] at this
    simp [TCacheItem.stage] at this
  | inspectionOk v =>
    have := hPspec (by rw [hr]; rfl)
    rw [hr] at this
    simp [TCacheItem.stage] at this

/-- `getTriedInspection` returns an item that is `Inspection`-staged whenever
Ok and preserves well-stagedness. -/
theorem getTriedInspection_wellStaged {T : EngineTypes} (E : Engine T) (d : TextDocument)
    (pos : PosKey) (loc : Option String) (res : Option T.Resolver) (s : CacheState T)
    (h : WellStaged s) :
    ((getTriedInspection E d pos loc res s).1.isOk = true →
      (getTriedInspection E d pos loc res s).1.stage = CacheStageKind.Inspection) ∧
    WellStaged (getTriedInspection E d pos loc res s).2 := by
  cases hc : positionCacheOf s d.uri pos with
  | some v =>
    have heq : getTriedInspection E d pos loc res s = (v, s) := by
      simp [getTriedInspection, hc]
    rw [heq]
    exact ⟨positionCacheOf_wellStaged h d.uri pos v hc, h⟩
  | none =>
    obtain ⟨hspec, hws⟩ := createTriedInspection_spec E d pos loc res s h
    have heq : getTriedInspection E d pos loc res s =
        ((createTriedInspection E d pos loc res s).1,
         { (createTriedInspection E d pos loc res s).2 with
           inspectionCache := fun u =>
             if u = d.uri then
               some (fun p =>
                 if p = pos then some (createTriedInspection E d pos loc res s).1
                 else positionCacheOf s d.uri p)
             else (createTriedInspection E d pos loc res s).2.inspectionCache u }) := by
      simp [getTriedInspection, hc]
    rw [heq]
    exact ⟨hspec,
      wellStaged_set_inspection hws d.uri (positionCacheOf s d.uri)
        (positionCacheOf_wellStaged h d.uri) pos
        (createTriedInspection E d pos loc res s).1 hspec⟩

/-- C4 evaluation: two position objects with equal `(line, character)` but
distinct identities are distinct `WeakMap` keys — the second
`getTriedInspection` call misses the cache and re-invokes the inspection
engine (invocation count goes from 1 to 2), although the claim requires a
cache hit with no recomputation. -/
theorem position_identity_cache_key_evaluation :
    ({ id := 0, line := 0, character := 1 } : PosKey).line =
      ({ id := 1, line := 0, character := 1 } : PosKey).line ∧
    ({ id := 0, line := 0, character := 1 } : PosKey).character =
      ({ id := 1, line := 0, character := 1 } : PosKey).character ∧
    (getTriedInspection engineAllOk docA { id := 0, line := 0, character := 1 } none none
      (initialCacheState NatEngineTypes)).2.inspectionCount = 1 ∧
    (getTriedInspection engineAllOk docA { id := 1, line := 0, character := 1 } none none
      (getTriedInspection engineAllOk docA { id := 0, line := 0, character := 1 } none none
        (initialCacheState NatEngineTypes)).2).2.inspectionCount = 2 :=
  ⟨rfl, rfl, rfl, rfl⟩

/-- C10: starting from the empty caches, every item returned by
`getTriedLexerSnapshot`, `getTriedParse` or `getTriedInspection` carries the
requested stage tag whenever its outcome is Ok — an item with an upstream
stage tag is always an Err — and the well-stagedness of the caches is an
invariant of every operation, `close` and `update` included. -/
theorem ok_item_stage_matches_request (T : EngineTypes) :
    WellStaged (initialCacheState T) ∧
    (∀ (E : Engine T) (d : TextDocument) (loc : Option String) (s : CacheState T),
      WellStaged s →
      ((getTriedLexerSnapshot E d loc s).1.isOk = true →
        (getTriedLexerSnapshot E d loc s).1.stage = CacheStageKind.LexerSnapshot) ∧
      WellStaged (getTriedLexerSnapshot E d loc s).2) ∧
    (∀ (E : Engine T) (d : TextDocument) (loc : Option String) (s : CacheState T),
      WellStaged s →
      ((getTriedParse E d loc s).1.isOk = true →
        (getTriedParse E d loc s).1.stage = CacheStageKind.Parser) ∧
      WellStaged (getTriedParse E d loc s).2) ∧
    (∀ (E : Engine T) (d : TextDocument) (pos : PosKey) (loc : Option String)
      (res : Option T.Resolver) (s : CacheState T),
      WellStaged s →
      ((getTriedInspection E d pos loc res s).1.isOk = true →
        (getTriedInspection E d pos loc res s).1.stage = CacheStageKind.Inspection) ∧
      WellStaged (getTriedInspection E d pos loc res s).2) ∧
    (∀ (E : Engine T) (d : TextDocument) (loc : Option String) (s : CacheState T),
      WellStaged s → WellStaged (getLexerState E d loc s).2) ∧
    (∀ (d : TextDocument) (s : CacheState T),
      WellStaged s → WellStaged (close d s)) ∧
    (∀ (d : TextDocument) (changes : List TextDocumentContentChangeEvent) (version : Nat)
      (s : CacheState T), WellStaged s → WellStaged (update d changes version s)) :=
  ⟨wellStaged_initial T,
   fun E d loc s h => getTriedLexerSnapshot_wellStaged E d loc s h,
   fun E d loc s h => getTriedParse_wellStaged E d loc s h,
   fun E d pos loc res s h => getTriedInspection_wellStaged E d pos loc res s h,
   fun E d loc s h => (getLexerState_wellStaged E d loc s h).2,
   fun d s h => close_preserves_wellStaged d s h,
   fun d _ _ s h => close_preserves_wellStaged d s h⟩

/-- Witness for C10: on the failing-lexer engine and the empty state, the
snapshot getter's item obeys the stage discipline and the resulting state is
well-staged. -/
theorem ok_item_stage_matches_request_witness :
    ((getTriedLexerSnapshot engineLexFails docA none
        (initialCacheState NatEngineTypes)).1.isOk = true →
      (getTriedLexerSnapshot engineLexFails docA none
        (initialCacheState NatEngineTypes)).1.stage = CacheStageKind.LexerSnapshot) ∧
    WellStaged (getTriedLexerSnapshot engineLexFails docA none
      (initialCacheState NatEngineTypes)).2 :=
  (ok_item_stage_matches_request NatEngineTypes).2.1 engineLexFails docA none
    (initialCacheState NatEngineTypes) (ok_item_stage_matches_request NatEngineTypes).1

end PQLS
